import Mathlib

/-!
Verification of the conversation orchestration engine of the philosopher-dinner
repository.  The definitions below are a shallow embedding of
`philosopher_dinner/forum/graph.py` (topic extraction, mention detection, the
`_decide_next_speaker` decision cycle, `add_human_message`,
`create_initial_state`), `philosopher_dinner/forum/state.py` (the state
records) and `philosopher_dinner/agents/base_agent.py` (activation scoring,
`should_respond`, `process_message`, LLM/fallback response routing), together
with the Socrates fallback generator from
`philosopher_dinner/agents/socrates.py`.

Modelling conventions: Python floats are embedded as rationals (every constant
in the code is an exact decimal); Python strings are lists of characters;
Python dicts keyed by strings are association lists in insertion order (Python
3.7+ dict iteration order); the two uses of `random` in the selection step are
made explicit as a rational draw `rand` and a choice index `k`; uuid ids,
timestamps and the untyped metadata map of messages are omitted, as is the
per-agent memory bookkeeping (no property below depends on them).
-/

namespace PhilDinner

/-- Characters of a Python string; strings are modelled as lists of characters. -/
abbrev Str := List Char

/-- The apostrophe character (written by code point to keep source plain). -/
def apo : Str := [Char.ofNat 39]

/-- Lowercasing of one character, modelling Python str.lower on ASCII input. -/
def lowerChar (c : Char) : Char :=
  if (Char.ofNat 65 ≤ c ∧ c ≤ Char.ofNat 90) then Char.ofNat (c.toNat + 32) else c

/-- Python str.lower, character by character. -/
def strLower (s : Str) : Str := s.map lowerChar

/-- Python str.startswith: the first list is an initial segment of the second. -/
def strStarts : Str → Str → Bool
  | [], _ => true
  | _ :: _, [] => false
  | p :: ps, c :: cs => decide (p = c) && strStarts ps cs

/-- Python substring containment (the `in` operator on strings): `pat` occurs
contiguously somewhere in the second argument. -/
def strHas (pat : Str) : Str → Bool
  | [] => strStarts pat []
  | c :: cs => strStarts pat (c :: cs) || strHas pat cs

/-- Lookup in a string-keyed association list with a default, modelling
Python dict.get(key, default). -/
def lookupD (m : List (Str × ℚ)) (k : Str) (d : ℚ) : ℚ :=
  match m.find? (fun p => decide (p.1 = k)) with
  | some p => p.2
  | none => d

/-- Message kinds, from state.py MessageType. -/
inductive MessageType
  | human
  | agent
  | oracle
  | system
deriving DecidableEq

/-- Forum discussion modes, from state.py ForumMode. -/
inductive ForumMode
  | consensus
  | debate
  | exploration
deriving DecidableEq

/-- One message of the log, from state.py Message (uuid id, timestamp and the
untyped metadata map are omitted). -/
structure Msg where
  sender : Str
  content : Str
  message_type : MessageType
  thinking : Option Str
deriving DecidableEq

/-- The static data of one agent, from the BaseAgent constructor: identifier,
display name, expertise areas, personality traits and the topic-interest map
of its memory. -/
structure AgentProfile where
  agent_id : Str
  name : Str
  expertise_areas : List Str
  personality_traits : List (Str × ℚ)
  topic_interests : List (Str × ℚ)
deriving DecidableEq

/-- The conversation state, from state.py ForumState (session id, timestamps,
active_speakers and the agent memory / activation caches are omitted; the
forum mode stands for forum_config). -/
structure ForumState where
  messages : List Msg
  current_topic : Str
  turn_count : ℕ
  waiting_for_human : Bool
  mode : ForumMode
  last_speaker : Option Str
deriving DecidableEq

/-- The fixed topic vocabulary of graph.py `_extract_topic`. -/
def philosophicalTopics : List Str :=
  ["truth", "reality", "existence", "knowledge", "wisdom",
   "ethics", "morality", "justice", "virtue", "good", "evil",
   "beauty", "love", "friendship", "happiness", "death",
   "consciousness", "mind", "soul", "god", "divine"].map String.data

/-- graph.py `_extract_topic`: first vocabulary word occurring in the lowered
text wins, otherwise the default label. -/
def extractTopic (content : Str) : Str :=
  match philosophicalTopics.find? (fun t => strHas t (strLower content)) with
  | some t => t
  | none => "philosophical discussion".data

/-- The name-to-agent-id table of graph.py `_detect_direct_mention`, in
insertion order. -/
def nameMappings : List (Str × Str) :=
  [("socrates".data, "socrates".data),
   ("aristotle".data, "aristotle".data),
   ("kant".data, "kant".data),
   ("immanuel kant".data, "kant".data),
   ("nietzsche".data, "nietzsche".data),
   ("friedrich nietzsche".data, "nietzsche".data),
   ("confucius".data, "confucius".data),
   ("plato".data, "plato".data)]

/-- The direct-address patterns of `_detect_direct_mention`, formatted with a
given name (the Python templates with `name` substituted). -/
def mentionPatterns (name : Str) : List Str :=
  [name ++ " what say you".data,
   name ++ " what do you think".data,
   "hey ".data ++ name,
   name ++ "!".data,
   name ++ ",".data,
   name ++ "?".data,
   "what would ".data ++ name ++ " say".data,
   "how would ".data ++ name ++ " respond".data,
   name ++ apo ++ "s view".data,
   "ask ".data ++ name]

/-- graph.py `_detect_direct_mention`: scan the name table in order; a name
that occurs in the lowered content yields its agent id when a formatted
pattern also occurs, or when the content starts with the name or with
"hey name"; otherwise scanning continues with the next table entry. -/
def detectDirectMention (content : Str) : Option Str :=
  let cl := strLower content
  nameMappings.foldl
    (fun acc p =>
      match acc with
      | some _ => acc
      | none =>
        if strHas p.1 cl then
          if (mentionPatterns p.1).any (fun pat => strHas pat cl) then some p.2
          else if strStarts p.1 cl || strStarts ("hey ".data ++ p.1) cl then some p.2
          else none
        else none)
    none

/-- base_agent.py `_calculate_topic_relevance`: 0.5 for an empty topic,
otherwise the maximum stored interest over expertise areas occurring in the
lowered topic (interest defaults to 0.5, accumulator starts at 0). -/
def topicRelevance (a : AgentProfile) (topic : Str) : ℚ :=
  if topic = [] then 1/2
  else a.expertise_areas.foldl
    (fun r area =>
      if strHas (strLower area) (strLower topic) then
        max r (lookupD a.topic_interests area (1/2))
      else r)
    0

/-- The weighty terms of base_agent.py `_calculate_engagement`. -/
def engagementTerms : List Str :=
  ["truth", "reality", "existence", "ethics", "morality", "justice"].map String.data

/-- base_agent.py `_calculate_engagement`: base 0.3, +0.3 for a question mark,
+0.1 per weighty term found, capped at 1. -/
def calcEngagement (content : Str) : ℚ :=
  let base : ℚ := 3/10 + (if strHas ("?".data) content then 3/10 else 0)
  let total := engagementTerms.foldl
    (fun e t => if strHas t (strLower content) then e + 1/10 else e) base
  min 1 total

/-- base_agent.py `_calculate_personality_activation`: a blend of extroversion
and agreeableness (both defaulting to 0.5), flipped in debate mode. -/
def personalityActivation (a : AgentProfile) (mode : ForumMode) : ℚ :=
  let e := lookupD a.personality_traits ("extroversion".data) (1/2)
  let g := lookupD a.personality_traits ("agreeableness".data) (1/2)
  if mode = ForumMode.debate then e * (7/10) + (1 - g) * (3/10)
  else e * (8/10) + g * (2/10)

/-- base_agent.py `evaluate_activation`: 0.3 on an empty log; otherwise the
mention bonus (0.8 for a human message containing the lowered name or id),
plus weighted topic relevance, engagement (only when the latest message is
not the agent.s own) and personality factor, clamped to [0,1]. -/
def evaluateActivation (a : AgentProfile) (st : ForumState) : ℚ :=
  match st.messages.getLast? with
  | none => 3/10
  | some latest =>
    let cl := strLower latest.content
    let mention : ℚ :=
      if latest.message_type = MessageType.human ∧
          (strHas (strLower a.name) cl = true ∨ strHas (strLower a.agent_id) cl = true)
      then 8/10 else 0
    let rel := topicRelevance a st.current_topic
    let eng := if latest.sender ≠ a.agent_id then calcEngagement latest.content else 0
    let pers := personalityActivation a st.mode
    min 1 (max 0 (mention + rel * (4/10) + eng * (3/10) + pers * (3/10)))

/-- The last n elements of a message list (Python negative slicing). -/
def lastN (n : ℕ) (l : List Msg) : List Msg := l.drop (l.length - n)

/-- base_agent.py `should_respond` (the BaseAgent implementation): never
respond to an own latest message, never after authoring 2 of the last 3
messages, otherwise respond when the activation reaches the threshold. -/
def shouldRespond (a : AgentProfile) (st : ForumState) (threshold : ℚ) : Bool :=
  if (st.messages.getLast?).any (fun m => decide (m.sender = a.agent_id)) then false
  else if 2 ≤ ((lastN 3 st.messages).filter (fun m => decide (m.sender = a.agent_id))).length then false
  else decide (threshold ≤ evaluateActivation a st)

/-- Outcome of one decision cycle of graph.py `_decide_next_speaker`: the
string "human", the string "end", or the id of the selected agent. -/
inductive Decision
  | awaitHuman
  | terminated
  | speaker (agent_id : Str)
deriving DecidableEq

/-- The activation threshold of the decision cycle: 0.3 with more than two
agents, 0.6 otherwise. -/
def activationThreshold (agents : List AgentProfile) : ℚ :=
  if 2 < agents.length then 3/10 else 6/10

/-- The recent-speaker window of the decision cycle: the last two messages,
but the empty list when the log holds fewer than two messages (the Python
guard `if len(messages) >= 2 else []`). -/
def recentTwo (st : ForumState) : List Msg :=
  if 2 ≤ st.messages.length then lastN 2 st.messages else []

/-- The mention step of the decision cycle: the detector result on the latest
message when that message is human-typed and the detected id belongs to a
live agent. -/
def mentionedAgent (agents : List AgentProfile) (st : ForumState) : Option Str :=
  match st.messages.getLast? with
  | none => none
  | some m =>
    if m.message_type = MessageType.human then
      match detectDirectMention m.content with
      | some aid =>
        if agents.any (fun a => decide (a.agent_id = aid)) then some aid else none
      | none => none
    else none

/-- The normal-threshold candidate map of the decision cycle, in agent
insertion order: agents outside the recent-speaker window whose
`should_respond` check passes, paired with their activation. -/
def agentScores (agents : List AgentProfile) (st : ForumState) : List (Str × ℚ) :=
  agents.filterMap (fun a =>
    if (recentTwo st).any (fun m => decide (m.sender = a.agent_id)) then none
    else if shouldRespond a st (activationThreshold agents) then
      some (a.agent_id, evaluateActivation a st)
    else none)

/-- The relaxed-floor candidate map of the fallback pass: agents outside the
recent-speaker window whose activation strictly exceeds 0.2. -/
def fbScores (agents : List AgentProfile) (st : ForumState) : List (Str × ℚ) :=
  agents.filterMap (fun a =>
    if (recentTwo st).any (fun m => decide (m.sender = a.agent_id)) then none
    else if 2/10 < evaluateActivation a st then
      some (a.agent_id, evaluateActivation a st)
    else none)

/-- Senders of agent-typed messages among the last five log entries, most
recent first (the last_speakers list of the decision cycle). -/
def lastSpeakers (st : ForumState) : List Str :=
  ((lastN 5 st.messages).reverse.filter
    (fun m => decide (m.message_type = MessageType.agent))).map Msg.sender

/-- Python max over a candidate map with a score key: the first entry of
maximal score in iteration order. -/
def maxByScore : List (Str × ℚ) → Option (Str × ℚ)
  | [] => none
  | p :: rest => some (rest.foldl (fun best q => if best.2 < q.2 then q else best) p)

/-- Stable insertion of one scored entry into a descending-sorted list: the
entry goes after every earlier entry of greater or equal score. -/
def insertDesc (p : Str × ℚ) : List (Str × ℚ) → List (Str × ℚ)
  | [] => [p]
  | q :: rest => if p.2 ≤ q.2 then q :: insertDesc p rest else p :: q :: rest

/-- Python sorted(..., key=score, reverse=True): stable descending sort of the
candidate map. -/
def sortDesc (l : List (Str × ℚ)) : List (Str × ℚ) :=
  l.foldl (fun acc p => insertDesc p acc) []

/-- Total indexing into a candidate map (the branch conditions of the decision
cycle guarantee the index is in range wherever this is used). -/
def pickIdx (l : List (Str × ℚ)) (n : ℕ) : Str × ℚ := l.getD n ([], 0)

/-- graph.py `_decide_next_speaker`, one decision cycle.  The two random draws
of the brand-new-conversation branch are made explicit: `rand` is the value of
random.random() and `k` selects the element random.choice picks among the
remaining candidates. -/
def decideNextSpeaker (agents : List AgentProfile) (st : ForumState)
    (rand : ℚ) (k : ℕ) : Decision :=
  if st.waiting_for_human then Decision.awaitHuman
  else if 10 < st.turn_count then Decision.terminated
  else if (st.messages.getLast?).any (fun m => decide (m.message_type = MessageType.agent)) then
    Decision.terminated
  else
    match mentionedAgent agents st with
    | some aid => Decision.speaker aid
    | none =>
      match agentScores agents st with
      | [] =>
        if 1 < agents.length then
          match maxByScore (fbScores agents st) with
          | some p => Decision.speaker p.1
          | none => Decision.terminated
        else Decision.terminated
      | [p] => Decision.speaker p.1
      | p :: q :: rest =>
        if lastSpeakers st = [] then
          if 2 ≤ (sortDesc (p :: q :: rest)).length then
            if rand < 4/10 then Decision.speaker (pickIdx (sortDesc (p :: q :: rest)) 0).1
            else if rand < 7/10 then Decision.speaker (pickIdx (sortDesc (p :: q :: rest)) 1).1
            else
              Decision.speaker (pickIdx
                (if 2 < (sortDesc (p :: q :: rest)).length
                 then (sortDesc (p :: q :: rest)).drop 2
                 else [pickIdx (sortDesc (p :: q :: rest)) 0])
                (k % (if 2 < (sortDesc (p :: q :: rest)).length
                      then (sortDesc (p :: q :: rest)).drop 2
                      else [pickIdx (sortDesc (p :: q :: rest)) 0]).length)).1
          else Decision.speaker (pickIdx (sortDesc (p :: q :: rest)) 0).1
        else
          match maxByScore ((p :: q :: rest).filter
              (fun c => decide (c.1 ∉ (lastSpeakers st).take 2))) with
          | some c => Decision.speaker c.1
          | none =>
            match maxByScore (p :: q :: rest) with
            | some c => Decision.speaker c.1
            | none => Decision.terminated

/-- graph.py `add_human_message`: append a human message, clear the
waiting-for-human flag, recompute the topic and increment turn_count. -/
def addHumanMessage (st : ForumState) (content : Str) : ForumState :=
  { st with
    messages := st.messages ++
      [{ sender := "human".data, content := content,
         message_type := MessageType.human, thinking := none }],
    waiting_for_human := false,
    current_topic := extractTopic content,
    turn_count := st.turn_count + 1 }

/-- graph.py `create_initial_state`: empty log, topic "introduction",
turn_count 0; a seed human message, when given, is appended and retopics the
session without touching turn_count. -/
def createInitialState (mode : ForumMode) (initial : Option Str) : ForumState :=
  let base : ForumState :=
    { messages := [], current_topic := "introduction".data, turn_count := 0,
      waiting_for_human := false, mode := mode, last_speaker := none }
  match initial with
  | none => base
  | some c =>
    { base with
      messages := [{ sender := "human".data, content := c,
                     message_type := MessageType.human, thinking := none }],
      current_topic := extractTopic c }

/-- Response record of an agent node, from state.py AgentResponse (memory and
metadata omitted). -/
structure AgentResponse where
  message : Option Msg
  activation_level : ℚ
deriving DecidableEq

/-- base_agent.py `create_message`: an agent-typed message from this agent. -/
def mkAgentMsg (a : AgentProfile) (content : Str) (thinking : Option Str) : Msg :=
  { sender := a.agent_id, content := content,
    message_type := MessageType.agent, thinking := thinking }

/-- Python join of the first two expertise areas with a comma separator
(", ".join(areas[:2]) in the LLM thinking trace). -/
def joinComma : List Str → Str
  | [] => []
  | [x] => x
  | x :: xs => x ++ ", ".data ++ joinComma xs

/-- base_agent.py `_generate_llm_response`: on a successful LLM call the
produced content becomes an agent message with activation 1; on any raised
error the except-branch substitutes the agent.s fallback response.  The LLM
call outcome is an explicit `Except` input, the fallback response an explicit
argument standing for `_generate_fallback_response(state)`. -/
def generateLlmResponse (a : AgentProfile) (llmResult : Except Str Str)
    (fallback : AgentResponse) : AgentResponse :=
  match llmResult with
  | Except.ok content =>
    { message := some (mkAgentMsg a content
        (some ("Considering this from my perspective as ".data ++ a.name ++
               ", drawing on my expertise in ".data ++
               joinComma (a.expertise_areas.take 2) ++ ".".data))),
      activation_level := 1 }
  | Except.error _ => fallback

/-- base_agent.py `generate_response`: route to the LLM path when an LLM is
available, otherwise straight to the fallback. -/
def generateResponse (a : AgentProfile) (llmAvailable : Bool)
    (llmResult : Except Str Str) (fallback : AgentResponse) : AgentResponse :=
  if llmAvailable then generateLlmResponse a llmResult fallback
  else fallback

/-- base_agent.py `process_message`: when `should_respond` (at its default
threshold 0.6) passes and the generated response carries a message, append it,
record the speaker and increment turn_count; otherwise the log and counters
are unchanged (the code then only refreshes memory and activation caches,
which are outside this model). -/
def processMessage (a : AgentProfile) (st : ForumState) (resp : AgentResponse) :
    ForumState :=
  if shouldRespond a st (6/10) then
    match resp.message with
    | some m =>
      { st with
        messages := st.messages ++ [m],
        last_speaker := some a.agent_id,
        turn_count := st.turn_count + 1 }
    | none => st
  else st

/-- One session-mutating operation: a human append or an agent node run with
its generated response. -/
inductive SessionOp
  | humanMsg (content : Str)
  | agentMsg (a : AgentProfile) (resp : AgentResponse)

/-- Apply one session operation. -/
def applyOp (st : ForumState) : SessionOp → ForumState
  | SessionOp.humanMsg c => addHumanMessage st c
  | SessionOp.agentMsg a resp => processMessage a st resp

/-- Run a sequence of session operations. -/
def runOps (st : ForumState) (ops : List SessionOp) : ForumState :=
  ops.foldl applyOp st

/-- The Socrates agent profile, from the SocratesAgent constructor (the
topic-interest map is the BaseAgent default: 0.8 per expertise area). -/
def socratesProfile : AgentProfile :=
  { agent_id := "socrates".data,
    name := "Socrates".data,
    expertise_areas :=
      ["ethics", "moral philosophy", "virtue", "knowledge", "justice",
       "courage", "wisdom", "self-knowledge", "questioning method"].map String.data,
    personality_traits :=
      [("extroversion".data, 8/10), ("agreeableness".data, 6/10),
       ("openness".data, 9/10), ("curiosity".data, 19/20),
       ("humility".data, 9/10), ("persistence".data, 8/10)],
    topic_interests :=
      (["ethics", "moral philosophy", "virtue", "knowledge", "justice",
        "courage", "wisdom", "self-knowledge", "questioning method"].map
        (fun s => (s.data, (8:ℚ)/10))) }

/-- The questionable-concept vocabulary of socrates.py `_extract_key_concepts`. -/
def socraticTerms : List Str :=
  ["truth", "knowledge", "wisdom", "justice", "virtue", "good", "evil",
   "beauty", "reality", "existence", "soul", "mind", "consciousness",
   "morality", "ethics", "courage", "temperance", "love", "friendship",
   "happiness", "pleasure", "pain", "death", "life", "god", "divine"].map String.data

/-- socrates.py `_extract_key_concepts`: the terms found in the lowered text,
up to three. -/
def extractKeyConcepts (text : Str) : List Str :=
  (socraticTerms.filter (fun t => strHas t (strLower text))).take 3

/-- The five thinking templates of socrates.py `_generate_thinking`, with the
sender and current topic substituted. -/
def socraticThinkingOptions (sender topic : Str) : List Str :=
  ["This person ".data ++ sender ++ " speaks of important matters. But do they truly understand what they mean?".data,
   "I hear ".data ++ sender ++ " making claims about ".data ++ topic ++ ". What assumptions lie beneath their words?".data,
   "An interesting point from ".data ++ sender ++ ". I wonder if they have examined the foundations of their belief?".data,
   "The words of ".data ++ sender ++ " remind me that we often use terms without understanding them. Perhaps a question will help.".data,
   "I sense that ".data ++ sender ++ " may be holding contradictory ideas. How can I help them see this through questioning?".data]

/-- socrates.py `_generate_thinking`: a random base template (the draw is the
index `t`), plus a content-dependent coda for questions or claims of
knowledge or truth. -/
def socraticThinking (latest : Msg) (topic : Str) (t : ℕ) : Str :=
  let opts := socraticThinkingOptions latest.sender topic
  let base := (opts.getD (t % opts.length) [])
  if strHas ("?".data) latest.content then
    base ++ " They ask a question - good! Questions are the beginning of wisdom.".data
  else if strHas ("know".data) (strLower latest.content) then
    base ++ " They claim to know something. But what is knowledge, really?".data
  else if strHas ("truth".data) (strLower latest.content) then
    base ++ " They speak of truth. But how can we be certain we have found it?".data
  else base

/-- The five concept-directed response templates of
socrates.py `_generate_socratic_response`. -/
def socraticConceptResponses (concept sender : Str) : List Str :=
  ["When you speak of ".data ++ concept ++ ", ".data ++ sender ++ ", what exactly do you mean by that?".data,
   "That is interesting, ".data ++ sender ++ ". But tell me, how do you know this about ".data ++ concept ++ "?".data,
   "I am curious, ".data ++ sender ++ " - when you say ".data ++ concept ++ ", do you think we all understand the same thing?".data,
   "Help me understand, ".data ++ sender ++ ". You mention ".data ++ concept ++ " - but what is its true nature?".data,
   "A moment, ".data ++ sender ++ ". Before we continue, shouldn".data ++ apo ++ "t we first examine what ".data ++ concept ++ " really means?".data]

/-- The five general response templates of
socrates.py `_generate_socratic_response`. -/
def socraticGeneralResponses (sender : Str) : List Str :=
  ["Your words intrigue me, ".data ++ sender ++ ". But I wonder - have you examined the foundations of what you believe?".data,
   "Tell me, ".data ++ sender ++ ", how did you come to hold this view? What convinced you of its truth?".data,
   "I confess I am puzzled, ".data ++ sender ++ ". Can you help me understand how you know this to be so?".data,
   "An interesting claim, ".data ++ sender ++ ". But what if the opposite were true? How would we know?".data,
   "You speak with confidence, ".data ++ sender ++ ". But as I always say, I know that I know nothing. What do you truly know?".data]

/-- The follow-up sentences of socrates.py `_generate_socratic_response`. -/
def socraticFollowUps : List Str :=
  [" For it seems to me that the unexamined life is not worth living.".data,
   " After all, can we not be deceived about what we think we know?".data,
   " Perhaps in questioning, we move closer to wisdom.".data,
   " For I have found that those who think they know the most often know the least.".data,
   " Surely the beginning of wisdom is admitting our ignorance?".data]

/-- socrates.py `_generate_socratic_response`: question the first extracted
concept when one exists, otherwise a general Socratic reply; the two random
draws (choice of template, and the 0.4-probability follow-up with its choice)
are the explicit inputs `r`, `q` and `f`. -/
def socraticResponse (latest : Msg) (r : ℕ) (q : ℚ) (f : ℕ) : Str :=
  let responses :=
    match extractKeyConcepts latest.content with
    | c :: _ => socraticConceptResponses c latest.sender
    | [] => socraticGeneralResponses latest.sender
  let resp := responses.getD (r % responses.length) []
  if q < 4/10 then resp ++ socraticFollowUps.getD (f % socraticFollowUps.length) []
  else resp

/-- socrates.py `_generate_fallback_response`: a fixed opening on an empty
log, otherwise a Socratic reply to the latest message; the result always
carries a message, with the current activation as level. -/
def socratesFallbackResponse (st : ForumState) (t r f : ℕ) (q : ℚ) : AgentResponse :=
  match st.messages.getLast? with
  | none =>
    { message := some (mkAgentMsg socratesProfile
        ("My friends, before we begin our discussion, let me ask: do we truly understand what we are talking about? For as I always say, I know that I know nothing - and perhaps this is the beginning of wisdom.".data)
        (some "A new conversation begins. I should introduce the importance of questioning our assumptions.".data)),
      activation_level := evaluateActivation socratesProfile st }
  | some latest =>
    { message := some (mkAgentMsg socratesProfile
        (socraticResponse latest r q f)
        (some (socraticThinking latest st.current_topic t))),
      activation_level := evaluateActivation socratesProfile st }

/-- A one-message session state whose single message is human-sent, used as
concrete input in several counterexamples and witnesses below. -/
def humanState (c : Str) (tc : ℕ) (w : Bool) : ForumState :=
  { messages := [{ sender := "human".data, content := c,
                   message_type := MessageType.human, thinking := none }],
    current_topic := "introduction".data, turn_count := tc, waiting_for_human := w,
    mode := ForumMode.exploration, last_speaker := none }

/-- A session state whose latest message is an agent reply by Socrates. -/
def agentLastState : ForumState :=
  { messages := [{ sender := "human".data, content := "What is justice?".data,
                   message_type := MessageType.human, thinking := none },
                 { sender := "socrates".data, content := "What do you mean by justice?".data,
                   message_type := MessageType.agent, thinking := none }],
    current_topic := "justice".data, turn_count := 2, waiting_for_human := false,
    mode := ForumMode.exploration, last_speaker := some ("socrates".data) }

/-- An adversarial session state whose single message carries an agent sender
but the HUMAN message type, mentioning that same agent. -/
def mislabeledState : ForumState :=
  { messages := [{ sender := "socrates".data, content := "hey socrates!".data,
                   message_type := MessageType.human, thinking := none }],
    current_topic := "introduction".data, turn_count := 0, waiting_for_human := false,
    mode := ForumMode.exploration, last_speaker := none }

/-- A withdrawn second participant with zero extroversion and agreeableness
and no expertise, whose activation stays below every threshold. -/
def quietProfile : AgentProfile :=
  { agent_id := "quietus".data, name := "Quietus".data,
    expertise_areas := [], personality_traits :=
      [("extroversion".data, 0), ("agreeableness".data, 0)],
    topic_interests := [] }

attribute [local semireducible] Rat.add Rat.mul Rat.inv Rat.sub

/-- C1: with the awaiting-human flag clear, the turn ceiling not exceeded and
a non-empty log whose most recent message is agent-typed, the decision cycle
returns TERMINATED, so each human utterance yields at most one agent reply
per cycle-group. -/
theorem c1_agent_last_message_terminates
    (agents : List AgentProfile) (st : ForumState) (rand : ℚ) (k : ℕ) (m : Msg)
    (hw : st.waiting_for_human = false) (ht : st.turn_count ≤ 10)
    (hlast : st.messages.getLast? = some m)
    (hm : m.message_type = MessageType.agent) :
    decideNextSpeaker agents st rand k = Decision.terminated := by
  unfold decideNextSpeaker
  simp [hw, hlast, hm, Nat.not_lt.mpr ht]

/-- Witness for C1 at a concrete two-message session ending in an agent
reply. -/
theorem c1_witness :
    decideNextSpeaker [socratesProfile] agentLastState 0 0 = Decision.terminated :=
  c1_agent_last_message_terminates [socratesProfile] agentLastState 0 0
    { sender := "socrates".data, content := "What do you mean by justice?".data,
      message_type := MessageType.agent, thinking := none }
    rfl (by decide) rfl rfl

/-- C2 (amended): with the awaiting-human flag clear, a turn_count strictly
above the ceiling 10 makes the decision cycle return TERMINATED; the ceiling
check does not fire at turn_count equal to 10, and the awaiting-human check
takes precedence over the ceiling. -/
theorem c2_ceiling_terminates
    (agents : List AgentProfile) (st : ForumState) (rand : ℚ) (k : ℕ)
    (hw : st.waiting_for_human = false) (ht : 10 < st.turn_count) :
    decideNextSpeaker agents st rand k = Decision.terminated := by
  unfold decideNextSpeaker
  simp [hw, ht]

/-- Witness for C2 (amended) at turn_count 11. -/
theorem c2_witness :
    decideNextSpeaker [socratesProfile] (humanState ("hi".data) 11 false) 0 0 =
      Decision.terminated :=
  c2_ceiling_terminates [socratesProfile] (humanState ("hi".data) 11 false) 0 0
    rfl (by decide)

/-- Counterexample to C2 as stated: at turn_count exactly 10 (the configured
ceiling, compared strictly) a decision cycle with a mentioned live agent
selects that agent instead of terminating, and with the awaiting-human flag
set a cycle whose turn_count exceeds the ceiling returns the wait-for-human
outcome, not TERMINATED. -/
theorem c2_counterexample :
    (humanState ("hey socrates!".data) 10 false).turn_count = 10 ∧
    decideNextSpeaker [socratesProfile] (humanState ("hey socrates!".data) 10 false) 0 0 =
      Decision.speaker ("socrates".data) ∧
    Decision.speaker ("socrates".data) ≠ Decision.terminated ∧
    10 < (humanState ("x".data) 12 true).turn_count ∧
    decideNextSpeaker [socratesProfile] (humanState ("x".data) 12 true) 0 0 =
      Decision.awaitHuman ∧
    Decision.awaitHuman ≠ Decision.terminated := by
  refine ⟨rfl, by decide, by decide, by decide, rfl, by decide⟩

/-- C3 (amended): with the awaiting-human flag clear and the turn ceiling not
exceeded, a latest human-typed message whose content resolves through the
mention detector to a live agent makes the decision cycle select exactly that
agent, irrespective of every activation score, the activation threshold, and
the random draws (the claim's further condition that the agent did not author
either of the last two messages is kept as a hypothesis although the code
never consults it on this path). -/
theorem c3_mention_precedence
    (agents : List AgentProfile) (st : ForumState) (rand : ℚ) (k : ℕ)
    (m : Msg) (aid : Str)
    (hw : st.waiting_for_human = false) (ht : st.turn_count ≤ 10)
    (hlast : st.messages.getLast? = some m)
    (hm : m.message_type = MessageType.human)
    (hdet : detectDirectMention m.content = some aid)
    (hin : agents.any (fun a => decide (a.agent_id = aid)) = true)
    (_hrecent : (lastN 2 st.messages).all (fun x => decide (x.sender ≠ aid)) = true) :
    decideNextSpeaker agents st rand k = Decision.speaker aid := by
  unfold decideNextSpeaker mentionedAgent
  simp [hw, hlast, hm, hdet, hin, Nat.not_lt.mpr ht]

/-- Witness for C3 (amended): "hey socrates!" routes to Socrates. -/
theorem c3_witness :
    decideNextSpeaker [socratesProfile] (humanState ("hey socrates!".data) 0 false) 0 0 =
      Decision.speaker ("socrates".data) :=
  c3_mention_precedence [socratesProfile] (humanState ("hey socrates!".data) 0 false) 0 0
    { sender := "human".data, content := "hey socrates!".data,
      message_type := MessageType.human, thinking := none }
    ("socrates".data) rfl (by decide) rfl rfl (by decide) (by decide) (by decide)

/-- Counterexample to C3 as stated: a session state whose latest message is
human-authored with an exact unambiguous mention of the live participant
socrates (who authored none of the last two messages) is not routed to
socrates when turn_count already exceeds the ceiling - the cycle returns
TERMINATED instead. -/
theorem c3_counterexample :
    mentionedAgent [socratesProfile] (humanState ("hey socrates!".data) 12 false) =
      some ("socrates".data) ∧
    (humanState ("hey socrates!".data) 12 false).messages.getLast? =
      some { sender := "human".data, content := "hey socrates!".data,
             message_type := MessageType.human, thinking := none } ∧
    decideNextSpeaker [socratesProfile] (humanState ("hey socrates!".data) 12 false) 0 0 =
      Decision.terminated ∧
    Decision.terminated ≠ Decision.speaker ("socrates".data) := by
  refine ⟨by decide, rfl, by decide, by decide⟩

/-- Decomposition of a successful linear search: the found element satisfies
the predicate and every list element before it fails it. -/
theorem find?_decomp {α : Type} (p : α → Bool) :
    ∀ (l : List α) (b : α), l.find? p = some b →
      p b = true ∧ ∃ l1 l2, l = l1 ++ b :: l2 ∧ ∀ x ∈ l1, p x = false := by
  intro l
  induction l with
  | nil => intro b h; simp at h
  | cons a as ih =>
    intro b h
    cases hpa : p a with
    | true =>
      have hb : a = b := by
        simp only [List.find?, hpa] at h
        exact Option.some.inj h
      subst hb
      exact ⟨hpa, [], as, rfl, fun x hx => absurd hx (List.not_mem_nil x)⟩
    | false =>
      simp only [List.find?, hpa] at h
      obtain ⟨hb, l1, l2, heq, hall⟩ := ih b h
      refine ⟨hb, a :: l1, l2, by rw [heq]; rfl, ?_⟩
      intro x hx
      rcases List.mem_cons.mp hx with rfl | hx2
      · exact hpa
      · exact hall x hx2

/-- C8 (amended): the Topic Extractor is a pure function returning the first
vocabulary word (in vocabulary order) occurring case-insensitively as a
substring of the text, and the default label "philosophical discussion" (not
"general discussion") when no vocabulary word occurs. -/
theorem c8_topic_extractor_first_match (text : Str) :
    (strHas (extractTopic text) (strLower text) = true ∧
      ∃ l1 l2, philosophicalTopics = l1 ++ extractTopic text :: l2 ∧
        ∀ t ∈ l1, strHas t (strLower text) = false) ∨
    (extractTopic text = "philosophical discussion".data ∧
      ∀ t ∈ philosophicalTopics, strHas t (strLower text) = false) := by
  unfold extractTopic
  cases h : philosophicalTopics.find? (fun t => strHas t (strLower text)) with
  | none =>
    right
    refine ⟨rfl, fun t ht => ?_⟩
    have := List.find?_eq_none.mp h t ht
    simpa using this
  | some t0 =>
    left
    obtain ⟨hp, l1, l2, heq, hall⟩ := find?_decomp _ philosophicalTopics t0 h
    exact ⟨hp, l1, l2, heq, hall⟩

/-- Witness for C8 (amended) at a concrete text containing the vocabulary
word truth. -/
theorem c8_witness :
    (strHas (extractTopic ("What is truth?".data)) (strLower ("What is truth?".data)) = true ∧
      ∃ l1 l2, philosophicalTopics = l1 ++ extractTopic ("What is truth?".data) :: l2 ∧
        ∀ t ∈ l1, strHas t (strLower ("What is truth?".data)) = false) ∨
    (extractTopic ("What is truth?".data) = "philosophical discussion".data ∧
      ∀ t ∈ philosophicalTopics, strHas t (strLower ("What is truth?".data)) = false) :=
  c8_topic_extractor_first_match ("What is truth?".data)

/-- Counterexample to C8 as stated: on a text matching no vocabulary word the
extractor returns the label "philosophical discussion", not the claimed
default "general discussion". -/
theorem c8_counterexample :
    (∀ t ∈ philosophicalTopics, strHas t (strLower ("xyz".data)) = false) ∧
    extractTopic ("xyz".data) = "philosophical discussion".data ∧
    extractTopic ("xyz".data) ≠ "general discussion".data := by
  refine ⟨by decide, by decide, by decide⟩

/-- C9: the Activation Scorer always returns a value of [0,1] (the weighted
sum is clamped at the end), returns exactly the cold-start baseline 0.3 on an
empty message log, and lookups of absent traits or interests yield the
neutral default rather than failing. -/
theorem c9_activation_in_range (a : AgentProfile) (st : ForumState)
    (t : Str) (n : ℕ) (w : Bool) (mo : ForumMode) (ls : Option Str) :
    0 ≤ evaluateActivation a st ∧ evaluateActivation a st ≤ 1 ∧
    evaluateActivation a
      { messages := [], current_topic := t, turn_count := n,
        waiting_for_human := w, mode := mo, last_speaker := ls } = 3/10 ∧
    ∀ key d, lookupD [] key d = d := by
  refine ⟨?_, ?_, rfl, fun key d => rfl⟩
  · unfold evaluateActivation
    cases st.messages.getLast? with
    | none => norm_num
    | some latest => exact le_min (by norm_num) (le_max_left 0 _)
  · unfold evaluateActivation
    cases st.messages.getLast? with
    | none => norm_num
    | some latest => exact min_le_left 1 _

/-- C10: the BaseAgent `should_respond` check is false whenever the latest
log message was sent by that agent, and whenever at least 2 of the last 3
messages were sent by that agent, independently of the activation score and
threshold - a stricter anti-spam bound than the last-2-messages rule. -/
theorem c10_should_respond_anti_spam (a : AgentProfile) (st : ForumState)
    (th : ℚ) (m : Msg) :
    (st.messages.getLast? = some m → m.sender = a.agent_id →
      shouldRespond a st th = false) ∧
    (2 ≤ ((lastN 3 st.messages).filter (fun x => decide (x.sender = a.agent_id))).length →
      shouldRespond a st th = false) := by
  constructor
  · intro h1 h2
    unfold shouldRespond
    simp [h1, h2]
  · intro h2
    unfold shouldRespond
    split
    · rfl
    · rfl

/-- Witness for C10: Socrates does not respond right after its own reply. -/
theorem c10_witness :
    shouldRespond socratesProfile agentLastState (6/10) = false :=
  (c10_should_respond_anti_spam socratesProfile agentLastState (6/10)
    { sender := "socrates".data, content := "What do you mean by justice?".data,
      message_type := MessageType.agent, thinking := none }).1 rfl rfl

/-- An agent node run either appends exactly one message and increments
turn_count by exactly one, or leaves the state unchanged. -/
theorem processMessage_step (a : AgentProfile) (st : ForumState) (resp : AgentResponse) :
    ((processMessage a st resp).turn_count = st.turn_count + 1 ∧
     (processMessage a st resp).messages.length = st.messages.length + 1) ∨
    processMessage a st resp = st := by
  unfold processMessage
  split
  · split
    · exact Or.inl ⟨rfl, by simp⟩
    · exact Or.inr rfl
  · exact Or.inr rfl

/-- Every session operation appends exactly one message and increments
turn_count by one, or leaves the state unchanged. -/
theorem applyOp_step (st : ForumState) (op : SessionOp) :
    ((applyOp st op).turn_count = st.turn_count + 1 ∧
     (applyOp st op).messages.length = st.messages.length + 1) ∨
    applyOp st op = st := by
  cases op with
  | humanMsg c => exact Or.inl ⟨rfl, by simp [applyOp, addHumanMessage]⟩
  | agentMsg a resp => exact processMessage_step a st resp

/-- Along any operation sequence, turn_count grows exactly with the number of
appended messages and the log length never shrinks. -/
theorem runOps_invariant : ∀ (ops : List SessionOp) (st : ForumState),
    (runOps st ops).turn_count =
      st.turn_count + ((runOps st ops).messages.length - st.messages.length) ∧
    st.messages.length ≤ (runOps st ops).messages.length ∧
    st.turn_count ≤ (runOps st ops).turn_count := by
  intro ops
  induction ops with
  | nil => intro st; simp [runOps]
  | cons op ops ih =>
    intro st
    have hrun : runOps st (op :: ops) = runOps (applyOp st op) ops := rfl
    rw [hrun]
    rcases applyOp_step st op with ⟨h1, h2⟩ | heq
    · obtain ⟨ha, hb, hc⟩ := ih (applyOp st op)
      refine ⟨by omega, by omega, by omega⟩
    · rw [heq]
      exact ih st

/-- C5 (amended): turn_count increases by exactly 1 each time a participant
(human or agent) successfully appends a message, never otherwise changes,
and after any operation sequence equals its initial value plus the number of
appended messages; it can however exceed the configured ceiling - the
ceiling only makes the next decision cycle terminate, it does not block
appends. -/
theorem c5_turn_count_tracks_appends (st : ForumState) (ops : List SessionOp)
    (c : Str) (a : AgentProfile) (resp : AgentResponse) :
    (addHumanMessage st c).turn_count = st.turn_count + 1 ∧
    (addHumanMessage st c).messages.length = st.messages.length + 1 ∧
    (((processMessage a st resp).turn_count = st.turn_count + 1 ∧
      (processMessage a st resp).messages.length = st.messages.length + 1) ∨
      processMessage a st resp = st) ∧
    (runOps st ops).turn_count =
      st.turn_count + ((runOps st ops).messages.length - st.messages.length) ∧
    st.messages.length ≤ (runOps st ops).messages.length ∧
    st.turn_count ≤ (runOps st ops).turn_count :=
  ⟨rfl, by simp [addHumanMessage], processMessage_step a st resp,
    (runOps_invariant ops st).1, (runOps_invariant ops st).2.1,
    (runOps_invariant ops st).2.2⟩

/-- Counterexample to the ceiling part of C5: eleven successful human appends
from a fresh session drive turn_count to 11, strictly above the configured
ceiling 10 - nothing caps turn_count at the ceiling. -/
theorem c5_counterexample :
    (runOps (createInitialState ForumMode.exploration none)
      (List.replicate 11 (SessionOp.humanMsg ("hello".data)))).turn_count = 11 ∧
    10 < (runOps (createInitialState ForumMode.exploration none)
      (List.replicate 11 (SessionOp.humanMsg ("hello".data)))).turn_count := by
  refine ⟨by decide, by decide⟩

/-- C6 (amended): an unexpected LLM error during response generation is
caught inside the agent boundary and replaced by the fallback response - no
exception propagates - but the participant is not treated as declining: the
Socrates fallback always carries a message, which process_message then
appends. -/
theorem c6_llm_error_routes_to_fallback (a : AgentProfile) (fb : AgentResponse)
    (e : Str) (st : ForumState) (t r f : ℕ) (q : ℚ) :
    generateResponse a true (Except.error e) fb = fb ∧
    (socratesFallbackResponse st t r f q).message.isSome = true := by
  constructor
  · rfl
  · unfold socratesFallbackResponse
    cases st.messages.getLast? <;> rfl

/-- Counterexample to C6 as stated: with the LLM call raising, processing a
human message that mentions Socrates still appends a (fallback) message on
the participant.s behalf - the participant is not skipped for the cycle. -/
theorem c6_counterexample :
    (processMessage socratesProfile (humanState ("Socrates, what is truth?".data) 0 false)
      (generateResponse socratesProfile true (Except.error ("boom".data))
        (socratesFallbackResponse (humanState ("Socrates, what is truth?".data) 0 false) 0 0 0 1))).messages.length
      = (humanState ("Socrates, what is truth?".data) 0 false).messages.length + 1 ∧
    ((processMessage socratesProfile (humanState ("Socrates, what is truth?".data) 0 false)
      (generateResponse socratesProfile true (Except.error ("boom".data))
        (socratesFallbackResponse (humanState ("Socrates, what is truth?".data) 0 false) 0 0 0 1))).messages.getLast?).map
      Msg.sender = some ("socrates".data) := by
  refine ⟨by decide, by decide⟩

/-- Every entry of the relaxed-floor candidate map comes from a live agent
outside the recent-speaker window whose activation strictly exceeds the 0.2
floor, and carries that activation as its score. -/
theorem fbScores_spec {agents : List AgentProfile} {st : ForumState} {p : Str × ℚ}
    (hp : p ∈ fbScores agents st) :
    ∃ a, a ∈ agents ∧ p.1 = a.agent_id ∧
      ((recentTwo st).any (fun m => decide (m.sender = a.agent_id))) = false ∧
      (2:ℚ)/10 < evaluateActivation a st ∧ p.2 = evaluateActivation a st := by
  unfold fbScores at hp
  obtain ⟨a, ha, hfa⟩ := List.mem_filterMap.mp hp
  by_cases h1 : ((recentTwo st).any (fun m => decide (m.sender = a.agent_id))) = true
  · rw [if_pos h1] at hfa
    cases hfa
  · have h1f : ((recentTwo st).any (fun m => decide (m.sender = a.agent_id))) = false :=
      Bool.eq_false_iff.mpr h1
    rw [if_neg h1] at hfa
    by_cases h2 : (2:ℚ)/10 < evaluateActivation a st
    · rw [if_pos h2] at hfa
      injection hfa with hpp
      exact ⟨a, ha, by rw [← hpp], h1f, h2, by rw [← hpp]⟩
    · rw [if_neg h2] at hfa
      cases hfa

/-- C7 (amended): when no participant passes the normal activation threshold
(and the cycle reaches the weighted-selection step at all: flag clear,
ceiling not exceeded, latest message not agent-typed, no mention), the
Coordinator runs the relaxed pass with floor 0.2 only for sessions with more
than one agent, selecting the highest-scored candidate who strictly exceeds
the floor and is outside the recent-speaker window, and returns TERMINATED
when that pass is empty; a single-agent session skips the relaxed pass and
terminates directly. -/
theorem c7_relaxed_floor_fallback
    (agents : List AgentProfile) (st : ForumState) (rand : ℚ) (k : ℕ)
    (hw : st.waiting_for_human = false) (ht : st.turn_count ≤ 10)
    (hla : ((st.messages.getLast?).any
      (fun m => decide (m.message_type = MessageType.agent))) = false)
    (hmen : mentionedAgent agents st = none)
    (hsc : agentScores agents st = []) :
    (1 < agents.length →
      decideNextSpeaker agents st rand k =
        (match maxByScore (fbScores agents st) with
         | some p => Decision.speaker p.1
         | none => Decision.terminated)) ∧
    (¬ 1 < agents.length → decideNextSpeaker agents st rand k = Decision.terminated) ∧
    ∀ p ∈ fbScores agents st, (2:ℚ)/10 < p.2 ∧
      ((recentTwo st).any (fun m => decide (m.sender = p.1))) = false := by
  refine ⟨?_, ?_, ?_⟩
  · intro hlen
    unfold decideNextSpeaker
    simp [hw, Nat.not_lt.mpr ht, hla, hmen, hsc, hlen]
  · intro hlen
    unfold decideNextSpeaker
    simp [hw, Nat.not_lt.mpr ht, hla, hmen, hsc, hlen]
  · intro p hp
    obtain ⟨a, _, hpa, hrec, hact, hval⟩ := fbScores_spec hp
    refine ⟨by rw [hval]; exact hact, by rw [hpa]; exact hrec⟩

/-- Witness for C7 (amended): with two agents, an empty normal pass and
Socrates above the relaxed floor, the cycle selects Socrates through the
relaxed pass. -/
theorem c7_witness :
    (1 < ([socratesProfile, quietProfile] : List AgentProfile).length →
      decideNextSpeaker [socratesProfile, quietProfile] (humanState ("zzz".data) 0 false) 0 0 =
        (match maxByScore (fbScores [socratesProfile, quietProfile]
            (humanState ("zzz".data) 0 false)) with
         | some p => Decision.speaker p.1
         | none => Decision.terminated)) ∧
    (¬ 1 < ([socratesProfile, quietProfile] : List AgentProfile).length →
      decideNextSpeaker [socratesProfile, quietProfile] (humanState ("zzz".data) 0 false) 0 0 =
        Decision.terminated) ∧
    ∀ p ∈ fbScores [socratesProfile, quietProfile] (humanState ("zzz".data) 0 false),
      (2:ℚ)/10 < p.2 ∧
      ((recentTwo (humanState ("zzz".data) 0 false)).any
        (fun m => decide (m.sender = p.1))) = false :=
  c7_relaxed_floor_fallback [socratesProfile, quietProfile]
    (humanState ("zzz".data) 0 false) 0 0 rfl (by decide) (by decide) (by decide) (by decide)

/-- Counterexample to C7 as stated: a single-agent session whose agent fails
the normal threshold 0.6 but strictly exceeds the relaxed floor 0.2 (and is
outside the recent-speaker window) is nonetheless TERMINATED - the relaxed
retry is skipped entirely because the session has only one agent. -/
theorem c7_counterexample :
    agentScores [socratesProfile] (humanState ("zzz".data) 0 false) = [] ∧
    (2:ℚ)/10 < evaluateActivation socratesProfile (humanState ("zzz".data) 0 false) ∧
    ((recentTwo (humanState ("zzz".data) 0 false)).any
      (fun m => decide (m.sender = "socrates".data))) = false ∧
    decideNextSpeaker [socratesProfile] (humanState ("zzz".data) 0 false) 0 0 =
      Decision.terminated ∧
    Decision.terminated ≠ Decision.speaker ("socrates".data) := by
  refine ⟨by decide, by decide, by decide, by decide, by decide⟩

/-- Membership through stable insertion. -/
theorem mem_insertDesc (p q : Str × ℚ) :
    ∀ l, q ∈ insertDesc p l ↔ q = p ∨ q ∈ l := by
  intro l
  induction l with
  | nil => simp [insertDesc]
  | cons r rs ih =>
    unfold insertDesc
    split
    · simp only [List.mem_cons, ih]
      tauto
    · simp only [List.mem_cons]

/-- Membership through the sorting fold. -/
theorem mem_sortDesc_fold (q : Str × ℚ) :
    ∀ (l acc : List (Str × ℚ)),
      q ∈ l.foldl (fun ac p => insertDesc p ac) acc ↔ q ∈ acc ∨ q ∈ l := by
  intro l
  induction l with
  | nil => intro acc; simp
  | cons p ps ih =>
    intro acc
    simp only [List.foldl_cons]
    rw [ih, mem_insertDesc]
    simp only [List.mem_cons]
    tauto

/-- The stable descending sort preserves membership. -/
theorem mem_sortDesc (l : List (Str × ℚ)) (q : Str × ℚ) :
    q ∈ sortDesc l ↔ q ∈ l := by
  unfold sortDesc
  rw [mem_sortDesc_fold]
  simp

/-- Stable insertion adds exactly one element. -/
theorem length_insertDesc (p : Str × ℚ) :
    ∀ l, (insertDesc p l).length = l.length + 1 := by
  intro l
  induction l with
  | nil => rfl
  | cons r rs ih =>
    simp only [insertDesc]
    split_ifs
    · simp [ih]
    · simp

/-- Length through the sorting fold. -/
theorem length_sortDesc_fold :
    ∀ (l acc : List (Str × ℚ)),
      (l.foldl (fun ac p => insertDesc p ac) acc).length = acc.length + l.length := by
  intro l
  induction l with
  | nil => intro acc; simp
  | cons p ps ih =>
    intro acc
    simp only [List.foldl_cons]
    rw [ih, length_insertDesc]
    simp only [List.length_cons]
    omega

/-- The stable descending sort preserves length. -/
theorem length_sortDesc (l : List (Str × ℚ)) : (sortDesc l).length = l.length := by
  unfold sortDesc
  rw [length_sortDesc_fold]
  simp

/-- The running maximum of the Python max fold stays in the candidate list. -/
theorem foldl_max_mem :
    ∀ (rest : List (Str × ℚ)) (x : Str × ℚ),
      rest.foldl (fun best q => if best.2 < q.2 then q else best) x ∈ x :: rest := by
  intro rest
  induction rest with
  | nil => intro x; simp
  | cons r rs ih =>
    intro x
    simp only [List.foldl_cons]
    by_cases hx : x.2 < r.2
    · rw [if_pos hx]
      have h := ih r
      simp only [List.mem_cons] at h ⊢
      tauto
    · rw [if_neg hx]
      have h := ih x
      simp only [List.mem_cons] at h ⊢
      tauto

/-- A successful Python max over a candidate map returns one of its entries. -/
theorem maxByScore_mem {l : List (Str × ℚ)} {p : Str × ℚ}
    (h : maxByScore l = some p) : p ∈ l := by
  cases l with
  | nil => cases h
  | cons x rest =>
    unfold maxByScore at h
    injection h with h2
    rw [← h2]
    exact foldl_max_mem rest x

/-- In-range total indexing returns a list element. -/
theorem getD_mem : ∀ (l : List (Str × ℚ)) (n : ℕ) (d : Str × ℚ),
    n < l.length → l.getD n d ∈ l := by
  intro l
  induction l with
  | nil => intro n d h; simp at h
  | cons x xs ih =>
    intro n d h
    cases n with
    | zero => simp
    | succ m =>
      have := ih m d (by simpa using h)
      simp only [List.getD_cons_succ, List.mem_cons]
      exact Or.inr this

/-- In-range picking returns a list element. -/
theorem pickIdx_mem {l : List (Str × ℚ)} {n : ℕ} (h : n < l.length) :
    pickIdx l n ∈ l :=
  getD_mem l n ([], 0) h

/-- Every entry of the normal-threshold candidate map is keyed by the id of a
live agent. -/
theorem agentScores_ids {agents : List AgentProfile} {st : ForumState} {p : Str × ℚ}
    (hp : p ∈ agentScores agents st) :
    p.1 ∈ agents.map AgentProfile.agent_id := by
  unfold agentScores at hp
  obtain ⟨a, ha, hfa⟩ := List.mem_filterMap.mp hp
  have hid : p.1 = a.agent_id := by
    by_cases h1 : ((recentTwo st).any (fun m => decide (m.sender = a.agent_id))) = true
    · rw [if_pos h1] at hfa
      cases hfa
    · rw [if_neg h1] at hfa
      by_cases h2 : shouldRespond a st (activationThreshold agents) = true
      · rw [if_pos h2] at hfa
        injection hfa with h3
        rw [← h3]
      · rw [if_neg h2] at hfa
        cases hfa
  rw [hid]
  exact List.mem_map_of_mem _ ha

/-- Every entry of the relaxed-floor candidate map is keyed by the id of a
live agent. -/
theorem fbScores_ids {agents : List AgentProfile} {st : ForumState} {p : Str × ℚ}
    (hp : p ∈ fbScores agents st) :
    p.1 ∈ agents.map AgentProfile.agent_id := by
  obtain ⟨a, ha, hpa, -, -, -⟩ := fbScores_spec hp
  rw [hpa]
  exact List.mem_map_of_mem _ ha

/-- A resolved mention names a live agent. -/
theorem mentionedAgent_ids {agents : List AgentProfile} {st : ForumState} {aid : Str}
    (h : mentionedAgent agents st = some aid) :
    aid ∈ agents.map AgentProfile.agent_id := by
  unfold mentionedAgent at h
  cases hl : st.messages.getLast? with
  | none => simp [hl] at h
  | some m =>
    simp only [hl] at h
    by_cases hm : m.message_type = MessageType.human
    · rw [if_pos hm] at h
      cases hd : detectDirectMention m.content with
      | none => simp [hd] at h
      | some x =>
        simp only [hd] at h
        by_cases hx : agents.any (fun a => decide (a.agent_id = x)) = true
        · rw [if_pos hx] at h
          injection h with h2
          rw [← h2]
          obtain ⟨a, ha, hax⟩ := List.any_eq_true.mp hx
          have hax2 : a.agent_id = x := of_decide_eq_true hax
          rw [← hax2]
          exact List.mem_map_of_mem _ ha
        · rw [if_neg hx] at h
          cases h
    · rw [if_neg hm] at h
      cases h

/-- Whenever a decision cycle selects a speaker, the selected id belongs to a
live agent and the latest log message (if any) is not agent-typed. -/
theorem decide_speaker_mem (agents : List AgentProfile) (st : ForumState)
    (rand : ℚ) (k : ℕ) (aid : Str)
    (hdec : decideNextSpeaker agents st rand k = Decision.speaker aid) :
    aid ∈ agents.map AgentProfile.agent_id ∧
    ((st.messages.getLast?).any
      (fun x => decide (x.message_type = MessageType.agent))) = false := by
  unfold decideNextSpeaker at hdec
  split at hdec
  · exact Decision.noConfusion hdec
  · split at hdec
    · exact Decision.noConfusion hdec
    · split at hdec
      · exact Decision.noConfusion hdec
      · next h3 =>
        refine ⟨?_, Bool.eq_false_iff.mpr h3⟩
        split at hdec
        · next x heq =>
          injection hdec with h4
          rw [← h4]
          exact mentionedAgent_ids heq
        · split at hdec
          · next heq =>
            split at hdec
            · split at hdec
              · next c heqm =>
                injection hdec with h4
                rw [← h4]
                exact fbScores_ids (maxByScore_mem heqm)
              · exact Decision.noConfusion hdec
            · exact Decision.noConfusion hdec
          · next p heq =>
            injection hdec with h4
            rw [← h4]
            have hp : p ∈ agentScores agents st := by
              rw [heq]; exact List.mem_singleton_self p
            exact agentScores_ids hp
          · next p q rest heq =>
            have hsub : ∀ c : Str × ℚ, c ∈ (p :: q :: rest) →
                c.1 ∈ agents.map AgentProfile.agent_id := by
              intro c hc
              apply agentScores_ids
              rw [heq]
              exact hc
            have hlen2 : (sortDesc (p :: q :: rest)).length = rest.length + 2 := by
              rw [length_sortDesc]
              simp
            split at hdec
            · split at hdec
              · split at hdec
                · injection hdec with h4
                  rw [← h4]
                  exact hsub _ ((mem_sortDesc _ _).mp (pickIdx_mem (by omega)))
                · split at hdec
                  · injection hdec with h4
                    rw [← h4]
                    exact hsub _ ((mem_sortDesc _ _).mp (pickIdx_mem (by omega)))
                  · injection hdec with h4
                    rw [← h4]
                    by_cases h5 : 2 < (sortDesc (p :: q :: rest)).length
                    · rw [if_pos h5]
                      have hdl : ((sortDesc (p :: q :: rest)).drop 2).length =
                          (sortDesc (p :: q :: rest)).length - 2 := List.length_drop 2 _
                      have hmemR : pickIdx ((sortDesc (p :: q :: rest)).drop 2)
                          (k % ((sortDesc (p :: q :: rest)).drop 2).length) ∈
                          (sortDesc (p :: q :: rest)).drop 2 :=
                        pickIdx_mem (Nat.mod_lt _ (by omega))
                      exact hsub _ ((mem_sortDesc _ _).mp
                        (List.drop_subset 2 _ hmemR))
                    · rw [if_neg h5]
                      have hone : pickIdx [pickIdx (sortDesc (p :: q :: rest)) 0]
                          (k % ([pickIdx (sortDesc (p :: q :: rest)) 0]).length) =
                          pickIdx (sortDesc (p :: q :: rest)) 0 := by
                        simp [pickIdx, Nat.mod_one]
                      rw [hone]
                      exact hsub _ ((mem_sortDesc _ _).mp (pickIdx_mem (by omega)))
              · next h6 =>
                exfalso
                omega
            · split at hdec
              · next c heqm =>
                injection hdec with h4
                rw [← h4]
                exact hsub _ (List.mem_of_mem_filter (maxByScore_mem heqm))
              · split at hdec
                · next c heqm2 =>
                  injection hdec with h4
                  rw [← h4]
                  exact hsub _ (maxByScore_mem heqm2)
                · exact Decision.noConfusion hdec

/-- C4 (amended): whenever a decision cycle selects a participant (through
the mention branch, the normal weighted-selection branch or the relaxed
fallback branch), the selected participant differs from the sender of the
immediately preceding message, provided the latest message is agent-typed
whenever its sender is one of the session agents; a state whose latest
message carries an agent sender under a non-agent message type can re-select
that sender (see the counterexample). -/
theorem c4_no_immediate_self_repeat
    (agents : List AgentProfile) (st : ForumState) (rand : ℚ) (k : ℕ)
    (m : Msg) (aid : Str)
    (hlast : st.messages.getLast? = some m)
    (hwf : m.sender ∈ agents.map AgentProfile.agent_id →
      m.message_type = MessageType.agent)
    (hdec : decideNextSpeaker agents st rand k = Decision.speaker aid) :
    aid ≠ m.sender := by
  obtain ⟨hids, hany⟩ := decide_speaker_mem agents st rand k aid hdec
  rw [hlast] at hany
  have hnt : m.message_type ≠ MessageType.agent := by
    intro hEq
    simp [Option.any, hEq] at hany
  intro hEq
  exact hnt (hwf (by rw [← hEq]; exact hids))

/-- Witness for C4 (amended): at a concrete mention-routed cycle the selected
agent differs from the human sender of the latest message. -/
theorem c4_witness :
    (humanState ("hey socrates!".data) 0 false).messages.getLast? =
      some { sender := "human".data, content := "hey socrates!".data,
             message_type := MessageType.human, thinking := none } ∧
    decideNextSpeaker [socratesProfile] (humanState ("hey socrates!".data) 0 false) 0 0 =
      Decision.speaker ("socrates".data) ∧
    ("socrates".data : Str) ≠ "human".data :=
  ⟨rfl, by decide,
    c4_no_immediate_self_repeat [socratesProfile]
      (humanState ("hey socrates!".data) 0 false) 0 0
      { sender := "human".data, content := "hey socrates!".data,
        message_type := MessageType.human, thinking := none }
      ("socrates".data) rfl (by decide) (by decide)⟩

/-- Counterexample to C4 as stated: on a state whose single log message
carries the sender socrates under the HUMAN message type and mentions
socrates, the cycle selects socrates - the same id as the sender of the
immediately preceding message. -/
theorem c4_counterexample :
    decideNextSpeaker [socratesProfile] mislabeledState 0 0 =
      Decision.speaker ("socrates".data) ∧
    (mislabeledState.messages.getLast?).map Msg.sender = some ("socrates".data) := by
  refine ⟨by decide, rfl⟩

end PhilDinner
